import Mathlib

/-!
Shallow embedding of the client-side synchronization and transaction layer of an
NFT-marketplace browser client (sources: an auction view component, a market
view plus owned-collection component, and a fusion component).

Conventions of the embedding:
* JavaScript numbers are modelled as exact rationals; integer ids as naturals;
  millisecond and second timestamps as integers.
* A controlled text input holding an amount is modelled as an Option of a
  rational: none stands for the empty (falsy) string, some v for a string
  that parses to the value v.
* A wallet submission is modelled by producing a transaction payload value;
  the numeric arguments of a payload carry the exact numeric value that the
  source converts to a decimal string at the boundary.
* The stable sort performed by the JavaScript runtime on an array with a
  numeric comparator is modelled by List.insertionSort with the corresponding
  total preorder: both are stable sorts, and a stable sort of a list by a
  total preorder is unique, so the model is exact.
-/

/-- A single argument of an entry-function transaction payload. Every argument
is string-encoded at the boundary in the source; the embedding keeps the value
that is encoded. -/
inductive TxArg where
  | addr (s : String)
  | idArg (n : ℕ)
  | amount (q : ℚ)
  | time (t : ℤ)
  deriving DecidableEq, Repr

/-- An entry-function transaction payload as handed to the wallet agent. -/
structure TxPayload where
  fn : String
  args : List TxArg
  deriving DecidableEq, Repr

/-- The numeric amount arguments carried by a payload, in order. -/
def amountArgs (p : TxPayload) : List ℚ :=
  p.args.filterMap (fun a => match a with | .amount q => some q | _ => none)

/-- Local precondition failures, per the error taxonomy of the specification.
In the source they are realized as disabled submit buttons and early returns. -/
inductive ValidationError where
  | bidNotAboveCurrent
  | auctionEnded
  deriving DecidableEq, Repr

/-- Opaque gateway failure (network or node error). -/
inductive GatewayError where
  | network
  deriving DecidableEq, Repr

/-! ## Codec -/

/-- Value of one hexadecimal digit character, with the parseInt convention that
anything unparseable contributes zero to the byte written into the array. -/
def hexDigitVal (c : Char) : ℕ :=
  if 48 ≤ c.toNat ∧ c.toNat ≤ 57 then c.toNat - 48
  else if 97 ≤ c.toNat ∧ c.toNat ≤ 102 then c.toNat - 87
  else if 65 ≤ c.toNat ∧ c.toNat ≤ 70 then c.toNat - 55
  else 0

/-- Consume a character list two characters at a time, producing one byte per
pair; a trailing lone character is dropped, as the source allocates an array of
floor(length / 2) bytes. -/
def hexPairs : List Char → List ℕ
  | c1 :: c2 :: rest => (hexDigitVal c1 * 16 + hexDigitVal c2) :: hexPairs rest
  | _ => []

/-- The hexToUint8Array helper of the source: a hex string (without a 0x tag)
to a byte list, two characters per byte. -/
def hexToBytes (s : String) : List ℕ :=
  hexPairs s.toList

/-- Modelled from the spec: the source delegates byte-to-text decoding to the
external TextDecoder UTF-8 builtin, which is not part of this repository. Per
the specification it interprets a byte sequence as text and never aborts the
caller. It is modelled as a total byte-to-character map; no claim depends on
the decoded text of a non-trivial byte sequence. -/
def decodeText (bytes : List ℕ) : String :=
  String.mk (bytes.map Char.ofNat)

/-- Fixed-point conversion used at every submission site of the source: the
major-unit amount is multiplied by 100000000 (no rounding is applied in the
source). -/
def toMinorUnits (x : ℚ) : ℚ :=
  x * 100000000

/-- Fixed-point conversion used at every decode site of the source: the ledger
amount is divided by 100000000 before display. -/
def toMajorUnits (y : ℚ) : ℚ :=
  y / 100000000

/-! ## Market view: data model and fetch -/

/-- The decoded marketplace NFT record of the market view component. -/
structure NFT where
  id : ℕ
  owner : String
  name : String
  description : String
  uri : String
  price : ℚ
  for_sale : Bool
  rarity : ℕ
  listed_at : ℤ
  deriving DecidableEq, Repr

/-- A raw marketplace NFT record as read from the marketplace account
resource: text fields are 0x-tagged hex strings, the price is in minor units,
and the listed-at field may be absent. -/
structure RawMarketNft where
  id : ℕ
  owner : String
  name : String
  description : String
  uri : String
  price : ℚ
  for_sale : Bool
  rarity : ℕ
  listed_at : Option ℤ
  deriving DecidableEq, Repr

/-- JavaScript or-default on the listed-at field: an absent or zero (falsy)
timestamp is replaced by the current time. -/
def jsOrDate (v : Option ℤ) (now : ℤ) : ℤ :=
  match v with
  | none => now
  | some t => if t = 0 then now else t

/-- Decode one raw marketplace record: strip the 0x tag, hex-decode and decode
the text fields, divide the price by 100000000, default the listed-at field. -/
def decodeMarketNft (now : ℤ) (r : RawMarketNft) : NFT :=
  { id := r.id
    owner := r.owner
    name := decodeText (hexToBytes (r.name.drop 2))
    description := decodeText (hexToBytes (r.description.drop 2))
    uri := decodeText (hexToBytes (r.uri.drop 2))
    price := r.price / 100000000
    for_sale := r.for_sale
    rarity := r.rarity
    listed_at := jsOrDate r.listed_at now }

/-- The two snapshot states of the market view: the full snapshot and the
filtered snapshot. -/
structure MarketState where
  nfts : List NFT
  filteredNfts : List NFT
  deriving DecidableEq, Repr

/-- The fetchNfts operation of the market view: on a successful read both
snapshot states are atomically replaced by the decoded records; on a read
failure the state is left unchanged and an error is surfaced (the returned
flag). -/
def fetchNfts (prev : MarketState) (now : ℤ)
    (resp : Except GatewayError (List RawMarketNft)) : MarketState × Bool :=
  match resp with
  | .error _ => (prev, true)
  | .ok nftList =>
    let decodedNfts := nftList.map (decodeMarketNft now)
    ({ nfts := decodedNfts, filteredNfts := decodedNfts }, false)

/-! ## Query engine: filter, sort, paginate -/

/-- The filter and sort parameters of the market view. A rarity of none models
the all-rarities setting; a date range of none models an unset range picker;
the sort key is the raw string of the sort selector. -/
structure Filters where
  rarity : Option ℕ
  priceLo : ℚ
  priceHi : ℚ
  dateRange : Option (ℤ × ℤ)
  searchTerm : String
  sortBy : String

/-- The sort stage of applyFilters: a switch on the sort-key string, each arm
sorting by the corresponding numeric comparator with the stable runtime sort;
an unknown key sorts nothing. -/
def sortStep (sortBy : String) (l : List NFT) : List NFT :=
  if sortBy = "price_asc" then l.insertionSort (fun a b => a.price ≤ b.price)
  else if sortBy = "price_desc" then l.insertionSort (fun a b => b.price ≤ a.price)
  else if sortBy = "date_asc" then l.insertionSort (fun a b => a.listed_at ≤ b.listed_at)
  else if sortBy = "date_desc" then l.insertionSort (fun a b => b.listed_at ≤ a.listed_at)
  else if sortBy = "rarity_asc" then l.insertionSort (fun a b => a.rarity ≤ b.rarity)
  else if sortBy = "rarity_desc" then l.insertionSort (fun a b => b.rarity ≤ a.rarity)
  else l

/-- The applyFilters transformation of the market view: rarity equality filter
(when a rarity is chosen), inclusive price-range filter, inclusive date-range
filter (when both ends are set), case-insensitive substring filter over name
and description (when the search term is nonempty), then the sort stage. -/
def applyFilters (nfts : List NFT) (f : Filters) : List NFT :=
  let step1 := match f.rarity with
    | none => nfts
    | some r => nfts.filter (fun nft => decide (nft.rarity = r))
  let step2 := step1.filter
    (fun nft => decide (f.priceLo ≤ nft.price) && decide (nft.price ≤ f.priceHi))
  let step3 := match f.dateRange with
    | none => step2
    | some (d1, d2) => step2.filter
        (fun nft => decide (d1 ≤ nft.listed_at) && decide (nft.listed_at ≤ d2))
  let step4 := if f.searchTerm = "" then step3 else
    step3.filter (fun nft =>
      String.containsSubstr nft.name.toLower (f.searchTerm.toLower).toSubstring ||
      String.containsSubstr nft.description.toLower (f.searchTerm.toLower).toSubstring)
  sortStep f.sortBy step4

/-- The page slice of the rendered view: slice((page - 1) * pageSize,
page * pageSize) of the filtered snapshot, with a 1-indexed page. -/
def paginate (page pageSize : ℕ) (l : List NFT) : List NFT :=
  (l.drop ((page - 1) * pageSize)).take pageSize

/-! ## Auction view -/

/-- The decoded NFT details nested in an auction record. -/
structure AuctionNftDetails where
  name : String
  description : String
  uri : String
  rarity : ℕ
  deriving DecidableEq, Repr

/-- The decoded auction record of the auction view. -/
structure Auction where
  id : ℕ
  nftId : ℕ
  seller : String
  startingPrice : ℚ
  currentBid : ℚ
  highestBidder : String
  endTime : ℤ
  nftDetails : AuctionNftDetails
  deriving DecidableEq, Repr

/-- A raw auction record as returned by the get-all-auctions view invocation:
prices in minor units, text fields as byte arrays. -/
structure RawAuction where
  id : ℕ
  nft_id : ℕ
  seller : String
  starting_price : ℚ
  current_bid : ℚ
  highest_bidder : String
  end_time : ℤ
  name : List ℕ
  description : List ℕ
  uri : List ℕ
  rarity : ℕ
  deriving DecidableEq, Repr

/-- Decode one raw auction record: divide both prices by 100000000 and decode
the byte-array text fields. -/
def decodeAuction (r : RawAuction) : Auction :=
  { id := r.id
    nftId := r.nft_id
    seller := r.seller
    startingPrice := r.starting_price / 100000000
    currentBid := r.current_bid / 100000000
    highestBidder := r.highest_bidder
    endTime := r.end_time
    nftDetails :=
      { name := decodeText r.name
        description := decodeText r.description
        uri := decodeText r.uri
        rarity := r.rarity } }

/-- The fetchAuctions operation of the auction view. The ok payload carries
some list when the first response element is an array and none otherwise; in
the latter case the source silently leaves the snapshot unchanged. On a read
failure the snapshot is left unchanged and an error is surfaced (the returned
flag). -/
def fetchAuctions (prev : List Auction)
    (resp : Except GatewayError (Option (List RawAuction))) : List Auction × Bool :=
  match resp with
  | .error _ => (prev, true)
  | .ok none => (prev, false)
  | .ok (some fetched) => (fetched.map decodeAuction, false)

/-- The ending test of the auction view: the current time in milliseconds is
strictly past the end time (held in seconds) times 1000. -/
def isAuctionEnded (nowMs : ℤ) (endTime : ℤ) : Bool :=
  decide (nowMs > endTime * 1000)

/-- The bid handler of the auction view: an empty bid input returns without
submitting; otherwise the bid amount is converted to minor units and a
place-bid payload with the marketplace address, the auction id and the
converted amount is produced for the wallet agent. -/
def handleBidSubmit (marketplaceAddr : String) (a : Auction) :
    Option ℚ → Option TxPayload
  | none => none
  | some v =>
    let bidAmountOctas := v * 100000000
    some { fn := marketplaceAddr ++ "::NFTMarketplace::place_bid"
           args := [.addr marketplaceAddr, .idArg a.id, .amount bidAmountOctas] }

/-- The disabled condition of the bid-modal submit button: the bid input is
empty, or the entered amount is not strictly greater than the current bid. -/
def bidSubmitDisabled (bid : Option ℚ) (a : Auction) : Bool :=
  match bid with
  | none => true
  | some v => decide (v ≤ a.currentBid)

/-- One bid submission attempt through the bid modal: when the submit button
is disabled the attempt stops locally with a validation error and nothing is
delegated to the wallet agent; otherwise the bid handler runs. -/
def attemptBidSubmit (marketplaceAddr : String) (a : Auction) (bid : Option ℚ) :
    Except ValidationError (Option TxPayload) :=
  if bidSubmitDisabled bid a then .error .bidNotAboveCurrent
  else .ok (handleBidSubmit marketplaceAddr a bid)

/-- One bid attempt on a rendered auction card: for an ended auction the view
renders only a disabled ended button, so the attempt stops locally; otherwise
the bid modal flow runs. -/
def attemptBidOnAuction (marketplaceAddr : String) (nowMs : ℤ) (a : Auction)
    (bid : Option ℚ) : Except ValidationError (Option TxPayload) :=
  if isAuctionEnded nowMs a.endTime then .error .auctionEnded
  else attemptBidSubmit marketplaceAddr a bid

/-! ## Owned-collection view -/

/-- The decoded owned NFT record of the owned-collection view (the object
built from the positional get-nft-details response). -/
structure OwnedNft where
  id : ℕ
  name : String
  description : String
  uri : String
  rarity : ℕ
  price : ℚ
  for_sale : Bool
  deriving DecidableEq, Repr

/-- The positional get-nft-details response as destructured by the
owned-collection view: id, owner, three 0x-tagged hex text fields, minor-unit
price, for-sale flag, rarity. -/
structure RawOwnedNft where
  nftId : ℕ
  owner : String
  name : String
  description : String
  uri : String
  price : ℚ
  forSale : Bool
  rarity : ℕ
  deriving DecidableEq, Repr

/-- Decode one positional get-nft-details response of the owned-collection
view. -/
def decodeOwnedNft (r : RawOwnedNft) : OwnedNft :=
  { id := r.nftId
    name := decodeText (hexToBytes (r.name.drop 2))
    description := decodeText (hexToBytes (r.description.drop 2))
    uri := decodeText (hexToBytes (r.uri.drop 2))
    rarity := r.rarity
    price := r.price / 100000000
    for_sale := r.forSale }

/-- The snapshot state of the owned-collection view: the decoded NFT list and
the total count used by its pagination control. -/
structure OwnedState where
  nfts : List OwnedNft
  totalNFTs : ℕ
  deriving DecidableEq, Repr

/-- The fetchUserNFTs operation of the owned-collection view. On a failed id
list read the state is unchanged and an error is surfaced. On a successful id
list read the total is set to the id count; an empty id list empties the
snapshot; otherwise the details of every id are fetched in a batch and a
per-id failure drops that id from the result instead of failing the batch. -/
def fetchUserNFTs_owned (prev : OwnedState) (idsResp : Except GatewayError (List ℕ))
    (details : ℕ → Except GatewayError RawOwnedNft) : OwnedState × Bool :=
  match idsResp with
  | .error _ => (prev, true)
  | .ok nftIds =>
    if nftIds.length = 0 then ({ nfts := [], totalNFTs := nftIds.length }, false)
    else
      ({ nfts := nftIds.filterMap (fun i => (details i).toOption.map decodeOwnedNft)
         totalNFTs := nftIds.length }, false)

/-- The listing handler of the owned-collection view: an empty sale-price
input returns without submitting; otherwise the price is converted to minor
units and a list-for-sale payload is produced for the wallet agent. No
rounding and no sign check is applied to the entered price. -/
def handleConfirmListing (marketplaceAddr : String) (nft : OwnedNft) :
    Option ℚ → Option TxPayload
  | none => none
  | some x =>
    let priceInOctas := x * 100000000
    some { fn := marketplaceAddr ++ "::NFTMarketplace::list_for_sale"
           args := [.addr marketplaceAddr, .idArg nft.id, .amount priceInOctas] }

/-- The purchase handler of the market view: with no selected NFT it returns
without submitting; otherwise the displayed major-unit price is converted back
to minor units and a purchase payload is produced for the wallet agent. -/
def handleConfirmPurchase (marketplaceAddr : String) :
    Option NFT → Option TxPayload
  | none => none
  | some nft =>
    let priceInOctas := nft.price * 100000000
    some { fn := marketplaceAddr ++ "::NFTMarketplace::purchase_nft"
           args := [.addr marketplaceAddr, .idArg nft.id, .amount priceInOctas] }

/-- The create-auction flow of the owned-collection view: the confirm handler
returns without submitting unless a selected NFT, a starting price and an end
time are all present; the createAuction helper then converts the starting
price to minor units and produces a create-auction payload with the end time
in unix seconds. -/
def handleConfirmAuction (marketplaceAddr : String) (nft : OwnedNft) :
    Option ℚ → Option ℤ → Option TxPayload
  | some startingPrice, some endTimeUnix =>
    let startingPriceOctas := startingPrice * 100000000
    some { fn := marketplaceAddr ++ "::NFTMarketplace::create_auction"
           args := [.addr marketplaceAddr, .idArg nft.id,
                    .amount startingPriceOctas, .time endTimeUnix] }
  | _, _ => none

/-! ## Fusion view -/

/-- The decoded NFT record of the fusion view. -/
structure FusionNft where
  id : ℕ
  name : String
  description : String
  uri : String
  rarity : ℕ
  deriving DecidableEq, Repr

/-- The positional get-nft-details response as destructured by the fusion
view: positions 0, 2, 3, 4 and 7, with the text fields as byte arrays. -/
structure RawFusionNft where
  nftId : ℕ
  name : List ℕ
  description : List ℕ
  uri : List ℕ
  rarity : ℕ
  deriving DecidableEq, Repr

/-- Decode one positional get-nft-details response of the fusion view. -/
def decodeFusionNft (r : RawFusionNft) : FusionNft :=
  { id := r.nftId
    name := decodeText r.name
    description := decodeText r.description
    uri := decodeText r.uri
    rarity := r.rarity }

/-- The batched per-id detail fetch of the fusion view: all detail reads must
succeed for the batch to succeed (the source awaits them jointly with no
per-id recovery), and the decoded records keep the id order. -/
def allFusionDetails (details : ℕ → Except GatewayError RawFusionNft) :
    List ℕ → Except GatewayError (List FusionNft)
  | [] => .ok []
  | i :: rest =>
    match details i, allFusionDetails details rest with
    | .ok r, .ok others => .ok (decodeFusionNft r :: others)
    | .error e, _ => .error e
    | _, .error e => .error e

/-- The fetchUserNFTs operation of the fusion view. Unlike the
owned-collection view, the per-id detail reads carry no per-id recovery: a
single failing detail read fails the whole batch, leaving the snapshot
unchanged with an error surfaced. -/
def fetchUserNFTs_fusion (prev : List FusionNft)
    (idsResp : Except GatewayError (List ℕ))
    (details : ℕ → Except GatewayError RawFusionNft) : List FusionNft × Bool :=
  match idsResp with
  | .error _ => (prev, true)
  | .ok nftIds =>
    match allFusionDetails details nftIds with
    | .error _ => (prev, true)
    | .ok nfts => (nfts, false)

/-- The selection handler of the fusion view: clicking an NFT whose id is
already selected removes every selected NFT with that id; otherwise the NFT is
appended when fewer than two are selected, and the click is refused (a warning
is shown and the selection is unchanged) when two are already selected. -/
def handleNFTSelect (selectedNFTs : List FusionNft) (nft : FusionNft) : List FusionNft :=
  if selectedNFTs.any (fun selected => selected.id = nft.id) then
    selectedNFTs.filter (fun selected => decide (selected.id ≠ nft.id))
  else if selectedNFTs.length < 2 then
    selectedNFTs ++ [nft]
  else
    selectedNFTs

/-- Outcome of the fusion handler: either a payload delegated to the wallet
agent, or a local refusal shown as an error message. -/
inductive FusionOutcome where
  | walletRequest (p : TxPayload)
  | refused (msg : String)
  deriving DecidableEq, Repr

/-- The fusion payload built from the first and second selected NFT. -/
def fusePayload (marketplaceAddr : String) (a b : FusionNft) : TxPayload :=
  { fn := marketplaceAddr ++ "::NFTMarketplace::fuse_nfts"
    args := [.addr marketplaceAddr, .idArg a.id, .idArg b.id] }

/-- The fusion handler of the fusion view: unless exactly two NFTs are
selected it refuses locally; otherwise it delegates a fuse payload carrying
the two selected ids to the wallet agent. It performs no check that the two
ids differ. -/
def handleFusion (marketplaceAddr : String) : List FusionNft → FusionOutcome
  | [a, b] => .walletRequest (fusePayload marketplaceAddr a b)
  | _ => .refused "Please select exactly two NFTs for fusion."

/-- The id arguments carried by a payload, in order. -/
def idArgsOf (p : TxPayload) : List ℕ :=
  p.args.filterMap (fun a => match a with | .idArg n => some n | _ => none)

/-! ## Spec-modelled gateway for the owner id list -/

/-- Modelled from the spec: the on-ledger view function returning the paged
owner NFT id list is not part of this repository (only its call sites are).
Per the specification it returns the page of the owner id list selected by
the limit and offset arguments. -/
def getAllNftsForOwner (ownerNftIds : List ℕ) (limit offset : ℕ) : List ℕ :=
  (ownerNftIds.drop offset).take limit

/-- The limit and offset the two fetchUserNFTs call sites pass to the owner
id list view invocation, as string literals in the source. -/
def ownedIdsViewArgs : ℕ × ℕ :=
  (100, 0)

/-- The owned-collection fetch as actually invoked: the id list read is the
owner id page with the fixed limit and offset of the call site. -/
def fetchUserNFTs_owned_run (prev : OwnedState) (ownerNftIds : List ℕ)
    (details : ℕ → Except GatewayError RawOwnedNft) : OwnedState × Bool :=
  fetchUserNFTs_owned prev
    (.ok (getAllNftsForOwner ownerNftIds ownedIdsViewArgs.1 ownedIdsViewArgs.2)) details

/-- The fusion-view fetch as actually invoked: the id list read is the owner
id page with the fixed limit and offset of the call site. -/
def fetchUserNFTs_fusion_run (prev : List FusionNft) (ownerNftIds : List ℕ)
    (details : ℕ → Except GatewayError RawFusionNft) : List FusionNft × Bool :=
  fetchUserNFTs_fusion prev
    (.ok (getAllNftsForOwner ownerNftIds ownedIdsViewArgs.1 ownedIdsViewArgs.2)) details

/-! ## Concrete sample values used by scenario theorems and witnesses -/

/-- A concrete auction with a current bid of 3 APT, used by scenario
theorems. -/
def auctionW : Auction :=
  { id := 1
    nftId := 1
    seller := "0xseller"
    startingPrice := 1
    currentBid := 3
    highestBidder := "0xbidder"
    endTime := 1000
    nftDetails := { name := "n", description := "d", uri := "u", rarity := 1 } }

/-- Concrete market snapshot of the filter scenario: an NFT with id 1,
rarity 2, price 5 and an NFT with id 2, rarity 1, price 3. -/
def nftSnapC4 : List NFT :=
  [ { id := 1, owner := "0xa", name := "one", description := "first", uri := "u1",
      price := 5, for_sale := true, rarity := 2, listed_at := 10 },
    { id := 2, owner := "0xb", name := "two", description := "second", uri := "u2",
      price := 3, for_sale := true, rarity := 1, listed_at := 20 } ]

/-- Filter parameters of the filter scenario: rarity 1, default price range,
no date range, no search, price ascending. -/
def filtersC4 : Filters :=
  { rarity := some 1, priceLo := 0, priceHi := 1000, dateRange := none,
    searchTerm := "", sortBy := "price_asc" }

/-- A concrete owned NFT used by the boundary-conversion scenarios. -/
def ownedNftC2 : OwnedNft :=
  { id := 7, name := "seven", description := "d", uri := "u", rarity := 1,
    price := 2, for_sale := false }

/-- First entity of the sort-tie scenario: id 2, price 5, listed earlier in
the snapshot. -/
def nftTieA : NFT :=
  { id := 2, owner := "0xa", name := "a", description := "a", uri := "ua",
    price := 5, for_sale := true, rarity := 1, listed_at := 1 }

/-- Second entity of the sort-tie scenario: id 1, price 5, listed later in
the snapshot. -/
def nftTieB : NFT :=
  { id := 1, owner := "0xb", name := "b", description := "b", uri := "ub",
    price := 5, for_sale := true, rarity := 2, listed_at := 2 }

/-- Filter parameters of the sort-tie scenario: no filters, price ascending. -/
def filtersTie : Filters :=
  { rarity := none, priceLo := 0, priceHi := 1000, dateRange := none,
    searchTerm := "", sortBy := "price_asc" }

/-- A fusion-view NFT with id 5, used by the equal-input fusion scenario. -/
def fusionNftFive : FusionNft :=
  { id := 5, name := "five", description := "d", uri := "u", rarity := 1 }

/-- A fusion-view NFT with id 1, used by selection witnesses. -/
def fusionNftW1 : FusionNft :=
  { id := 1, name := "w1", description := "d", uri := "u", rarity := 1 }

/-- A fusion-view NFT with id 2, used by selection witnesses. -/
def fusionNftW2 : FusionNft :=
  { id := 2, name := "w2", description := "d", uri := "u", rarity := 2 }

/-- The fusion-selection invariant: at most two NFTs are selected and the
selected ids are pairwise distinct. -/
def SelInv (s : List FusionNft) : Prop :=
  s.length ≤ 2 ∧ (s.map FusionNft.id).Nodup

/-- The selection states reachable through the selection handler starting
from the empty selection. -/
inductive SelReachable : List FusionNft → Prop where
  | empty : SelReachable []
  | step (s : List FusionNft) (n : FusionNft) :
      SelReachable s → SelReachable (handleNFTSelect s n)

/-! ## C1 -/

/-- C1: for every bid submission against an auction through the bid modal, an
entered bid amount that is not strictly greater than the current bid leaves
the submit button disabled, so the attempt stops with a local validation
error and no intent is delegated to the wallet agent or the network. -/
theorem bid_not_above_current_rejected (m : String) (a : Auction) (v : ℚ)
    (hv : v ≤ a.currentBid) :
    attemptBidSubmit m a (some v) = .error .bidNotAboveCurrent := by
  simp [attemptBidSubmit, bidSubmitDisabled, hv]

/-- Witness for C1: a bid of 3 against a current bid of 3 is rejected with a
validation error before submission. -/
theorem bid_not_above_current_rejected_witness :
    (3 : ℚ) ≤ auctionW.currentBid
    ∧ attemptBidSubmit "0xM" auctionW (some 3) = .error .bidNotAboveCurrent :=
  ⟨le_refl (3 : ℚ), bid_not_above_current_rejected "0xM" auctionW 3 (le_refl (3 : ℚ))⟩

/-! ## C3 -/

/-- C3: for every repository fetch of the client (marketplace NFT snapshot,
auction snapshot, owned-NFT snapshot of the collection view, owned-NFT
snapshot of the fusion view), a failing read invocation leaves the previously
held snapshot unchanged and surfaces an error to the caller. -/
theorem read_failure_keeps_snapshot (e : GatewayError) (s1 : MarketState)
    (now : ℤ) (s2 : List Auction) (s3 : OwnedState) (s4 : List FusionNft)
    (d1 : ℕ → Except GatewayError RawOwnedNft)
    (d2 : ℕ → Except GatewayError RawFusionNft) :
    fetchNfts s1 now (.error e) = (s1, true)
    ∧ fetchAuctions s2 (.error e) = (s2, true)
    ∧ fetchUserNFTs_owned s3 (.error e) d1 = (s3, true)
    ∧ fetchUserNFTs_fusion s4 (.error e) d2 = (s4, true) :=
  ⟨rfl, rfl, rfl, rfl⟩

/-! ## C4 -/

/-- C4: on the snapshot with entities id 1 (rarity 2, price 5) and id 2
(rarity 1, price 3), the query transformation with the rarity-1 filter, price
ascending sort and page size 8 yields page 1 holding exactly the entity with
id 2, and the total count fed to the pagination control is the filtered count
1, not the snapshot size 2. -/
theorem scenario_filter_sort_paginate :
    (paginate 1 8 (applyFilters nftSnapC4 filtersC4)).map NFT.id = [2]
    ∧ (applyFilters nftSnapC4 filtersC4).length = 1
    ∧ nftSnapC4.length = 2 := by
  decide

/-! ## C5 -/

/-- C5: a bid attempt on an auction whose end time lies in the past is
rejected locally (the view renders only a disabled ended button for it)
before any network call is made. -/
theorem ended_auction_bid_rejected_locally (m : String) (nowMs : ℤ)
    (a : Auction) (bid : Option ℚ) (h : a.endTime * 1000 < nowMs) :
    attemptBidOnAuction m nowMs a bid = .error .auctionEnded := by
  simp [attemptBidOnAuction, isAuctionEnded, h]

/-- Witness for C5: at millisecond time 2000000 an auction ending at second
1000 is past its end, and a bid attempt on it is rejected locally. -/
theorem ended_auction_bid_rejected_locally_witness :
    auctionW.endTime * 1000 < 2000000
    ∧ attemptBidOnAuction "0xM" 2000000 auctionW (some 10) = .error .auctionEnded :=
  ⟨by decide, ended_auction_bid_rejected_locally "0xM" 2000000 auctionW (some 10) (by decide)⟩

/-! ## C8 -/

/-- C8: for every non-negative amount representable at two decimal places,
converting it to minor units as done at submission (multiplication by 10^8)
and back as done at decode (division by 10^8) returns exactly the original
amount. Amount arithmetic is modelled as exact rational arithmetic. -/
theorem currency_round_trip (x : ℚ) (hx : 0 ≤ x) (h2 : ∃ n : ℤ, x = n / 100) :
    toMajorUnits (toMinorUnits x) = x := by
  unfold toMajorUnits toMinorUnits
  field_simp

/-- Witness for C8: the amount 3.25 round-trips through the boundary
conversions. -/
theorem currency_round_trip_witness :
    (0 : ℚ) ≤ 13 / 4 ∧ (∃ n : ℤ, (13 : ℚ) / 4 = n / 100)
    ∧ toMajorUnits (toMinorUnits (13 / 4)) = 13 / 4 :=
  ⟨by norm_num, ⟨325, by norm_num⟩,
    currency_round_trip (13 / 4) (by norm_num) ⟨325, by norm_num⟩⟩


/-! ## C2 -/

/-- C2 counterexample: the listing path neither rejects a negative entered
price nor rounds the converted amount. An entered price of -1 produces a
wallet payload carrying the amount -10^8 instead of being rejected, and an
entered price of 10^-9 produces a payload carrying the non-integral amount
1/10, which differs from the round-to-nearest value the claim prescribes. -/
theorem boundary_conversion_claim_fails :
    (handleConfirmListing "0xM" ownedNftC2 (some (-1))).map amountArgs
      = some [-100000000]
    ∧ (handleConfirmListing "0xM" ownedNftC2 (some (1 / 1000000000))).map amountArgs
      = some [1 / 10]
    ∧ ((round ((1 : ℚ) / 1000000000 * 100000000) : ℤ) : ℚ) ≠ 1 / 10 := by
  refine ⟨?_, ?_, ?_⟩
  · norm_num [handleConfirmListing]
    rfl
  · norm_num [handleConfirmListing]
    rfl
  · norm_num [round_eq]

/-- C2 as amended: for every price or bid amount crossing the boundary toward
the ledger (place-bid, purchase, list-for-sale, create-auction), the argument
sent is the exact product of the major-unit amount and 10^8, with no rounding
applied and with no rejection of negative inputs. -/
theorem boundary_conversion_exact_product (m : String) (x : ℚ)
    (nftL : OwnedNft) (nftP : NFT) (a : Auction) (t : ℤ) :
    (handleConfirmListing m nftL (some x)).map amountArgs = some [x * 100000000]
    ∧ (handleConfirmPurchase m (some nftP)).map amountArgs
        = some [nftP.price * 100000000]
    ∧ (handleBidSubmit m a (some x)).map amountArgs = some [x * 100000000]
    ∧ (handleConfirmAuction m nftL (some x) (some t)).map amountArgs
        = some [x * 100000000] :=
  ⟨rfl, rfl, rfl, rfl⟩

/-! ## C6 and C10: selection invariant machinery -/

/-- Preservation lemma: one selection click preserves the selection
invariant. -/
theorem selInv_step {s : List FusionNft} (h : SelInv s) (n : FusionNft) :
    SelInv (handleNFTSelect s n) := by
  obtain ⟨hlen, hnd⟩ := h
  unfold handleNFTSelect
  split_ifs with h1 h2
  · constructor
    · exact le_trans (List.length_filter_le _ _) hlen
    · exact hnd.sublist (List.Sublist.map _ (List.filter_sublist s))
  · constructor
    · simp only [List.length_append, List.length_singleton]
      omega
    · have hnotin : n.id ∉ s.map FusionNft.id := by
        simp only [List.any_eq_true, decide_eq_true_eq] at h1
        simp only [List.mem_map]
        rintro ⟨x, hx, hxid⟩
        exact h1 ⟨x, hx, hxid⟩
      have hperm : List.Perm ((s ++ [n]).map FusionNft.id)
          (n.id :: s.map FusionNft.id) := by
        simpa using List.perm_append_singleton n.id (s.map FusionNft.id)
      exact (List.nodup_cons.mpr ⟨hnotin, hnd⟩).perm hperm.symm
  · exact ⟨hlen, hnd⟩

/-- Every selection state reachable from the empty selection satisfies the
selection invariant. -/
theorem selReachable_inv {s : List FusionNft} (h : SelReachable s) : SelInv s := by
  induction h with
  | empty => exact ⟨by simp, by simp⟩
  | step s n hs ih => exact selInv_step ih n

/-! ## C6 -/

/-- C6 counterexample: the fusion handler itself performs no distinct-inputs
validation. Invoked on a selection holding the same id-5 NFT twice, it
delegates a fuse payload carrying the id arguments 5 and 5 to the wallet
agent instead of rejecting the request with a validation error. -/
theorem equal_input_fusion_reaches_wallet :
    handleFusion "0xM" [fusionNftFive, fusionNftFive]
      = .walletRequest (fusePayload "0xM" fusionNftFive fusionNftFive)
    ∧ idArgsOf (fusePayload "0xM" fusionNftFive fusionNftFive) = [5, 5] :=
  ⟨rfl, rfl⟩

/-- C6 as amended: a fusion request with equal input ids cannot be formed
through the selection interface. Every selection state reachable through the
selection handler has pairwise-distinct ids, so every fuse payload the fusion
handler delegates to the wallet agent from a reachable selection carries two
distinct id arguments; the fusion handler itself checks only that exactly two
NFTs are selected, not that their ids differ. -/
theorem reachable_fusion_request_distinct_ids (m : String) (s : List FusionNft)
    (h : SelReachable s) (p : TxPayload)
    (hp : handleFusion m s = .walletRequest p) : (idArgsOf p).Nodup := by
  have hinv : SelInv s := selReachable_inv h
  rcases s with _ | ⟨a, _ | ⟨b, _ | ⟨c, rest⟩⟩⟩
  · simp [handleFusion] at hp
  · simp [handleFusion] at hp
  · have hpe : p = fusePayload m a b := by
      simpa [handleFusion] using hp.symm
    subst hpe
    have hnd : (List.map FusionNft.id [a, b]).Nodup := hinv.2
    simpa [idArgsOf, fusePayload] using hnd
  · simp [handleFusion] at hp

/-- Witness for the amended C6: the selection holding the id-1 and id-2 NFTs
is reachable from the empty selection, and the delegated fuse payload carries
distinct id arguments. -/
theorem reachable_fusion_request_distinct_ids_witness :
    SelReachable [fusionNftW1, fusionNftW2]
    ∧ (idArgsOf (fusePayload "0xM" fusionNftW1 fusionNftW2)).Nodup := by
  have h0 : SelReachable [fusionNftW1] := by
    have h := SelReachable.step [] fusionNftW1 SelReachable.empty
    have e : handleNFTSelect [] fusionNftW1 = [fusionNftW1] := by decide
    rwa [e] at h
  have h1 : SelReachable [fusionNftW1, fusionNftW2] := by
    have h := SelReachable.step [fusionNftW1] fusionNftW2 h0
    have e : handleNFTSelect [fusionNftW1] fusionNftW2
        = [fusionNftW1, fusionNftW2] := by decide
    rwa [e] at h
  exact ⟨h1, reachable_fusion_request_distinct_ids "0xM"
    [fusionNftW1, fusionNftW2] h1 (fusePayload "0xM" fusionNftW1 fusionNftW2) rfl⟩

/-! ## C10 -/

/-- C10: the selection invariant (at most two selected NFTs, pairwise
distinct ids) is preserved by every select or deselect click; clicking an
already-selected NFT removes it, and clicking a new NFT while two are
selected leaves the selection unchanged. -/
theorem fusion_selection_invariant (s : List FusionNft) (n : FusionNft)
    (h : SelInv s) :
    SelInv (handleNFTSelect s n)
    ∧ ((s.any fun x => x.id = n.id) = true →
        handleNFTSelect s n = s.filter (fun x => decide (x.id ≠ n.id)))
    ∧ ((s.any fun x => x.id = n.id) = false → s.length = 2 →
        handleNFTSelect s n = s) := by
  refine ⟨selInv_step h n, ?_, ?_⟩
  · intro hmem
    simp [handleNFTSelect, hmem]
  · intro hmem hlen
    simp [handleNFTSelect, hmem, hlen]

/-- Witness for C10: the singleton id-1 selection satisfies the invariant,
and clicking the id-2 NFT preserves it. -/
theorem fusion_selection_invariant_witness :
    SelInv [fusionNftW1] ∧ SelInv (handleNFTSelect [fusionNftW1] fusionNftW2) := by
  have h : SelInv [fusionNftW1] := ⟨by simp, by simp⟩
  exact ⟨h, (fusion_selection_invariant [fusionNftW1] fusionNftW2 h).1⟩

/-! ## C7 -/

/-- C7 counterexample: on the snapshot holding the id-2 entity before the
id-1 entity, both priced 5, the price-ascending sort returns the two
price-equal entities in snapshot order id 2 before id 1, not in ascending id
order as the claim states. -/
theorem sort_tie_not_id_ascending :
    (applyFilters [nftTieA, nftTieB] filtersTie).map NFT.id = [2, 1]
    ∧ nftTieA.price = nftTieB.price
    ∧ nftTieA.id = 2 ∧ nftTieB.id = 1 := by
  refine ⟨by decide, rfl, rfl, rfl⟩

/-- Specification of the stable runtime sort used by the sort stage: the
result is sorted by the comparator, is a permutation of the input, and keeps
every comparator-ordered pair of the input in order (stability). -/
theorem stableSortSpec (r : NFT → NFT → Prop) [DecidableRel r]
    (total : ∀ a b, r a b ∨ r b a) (htrans : ∀ a b c, r a b → r b c → r a c)
    (l : List NFT) :
    (l.insertionSort r).Sorted r ∧ List.Perm (l.insertionSort r) l
    ∧ ∀ a b, r a b → List.Sublist [a, b] l →
        List.Sublist [a, b] (l.insertionSort r) := by
  refine ⟨?_, List.perm_insertionSort r l,
    fun a b hab h => List.pair_sublist_insertionSort hab h⟩
  haveI : IsTotal NFT r := ⟨total⟩
  haveI : IsTrans NFT r := ⟨htrans⟩
  exact List.sorted_insertionSort r l

/-- C7 as amended: for every snapshot and every chosen sort key, the sort
stage orders the entities by the chosen key and is a permutation of its
input, and entities comparing equal on the sort key keep their snapshot
relative order (the runtime sort is stable); no tie-break by entity id is
applied, so the order is deterministic only relative to the snapshot order. -/
theorem sort_stable_ties_in_snapshot_order (l : List NFT) :
    ((sortStep "price_asc" l).Sorted (fun a b => a.price ≤ b.price)
      ∧ List.Perm (sortStep "price_asc" l) l
      ∧ ∀ a b : NFT, a.price = b.price → List.Sublist [a, b] l →
          List.Sublist [a, b] (sortStep "price_asc" l))
    ∧ ((sortStep "price_desc" l).Sorted (fun a b => b.price ≤ a.price)
      ∧ List.Perm (sortStep "price_desc" l) l
      ∧ ∀ a b : NFT, a.price = b.price → List.Sublist [a, b] l →
          List.Sublist [a, b] (sortStep "price_desc" l))
    ∧ ((sortStep "date_asc" l).Sorted (fun a b => a.listed_at ≤ b.listed_at)
      ∧ List.Perm (sortStep "date_asc" l) l
      ∧ ∀ a b : NFT, a.listed_at = b.listed_at → List.Sublist [a, b] l →
          List.Sublist [a, b] (sortStep "date_asc" l))
    ∧ ((sortStep "date_desc" l).Sorted (fun a b => b.listed_at ≤ a.listed_at)
      ∧ List.Perm (sortStep "date_desc" l) l
      ∧ ∀ a b : NFT, a.listed_at = b.listed_at → List.Sublist [a, b] l →
          List.Sublist [a, b] (sortStep "date_desc" l))
    ∧ ((sortStep "rarity_asc" l).Sorted (fun a b => a.rarity ≤ b.rarity)
      ∧ List.Perm (sortStep "rarity_asc" l) l
      ∧ ∀ a b : NFT, a.rarity = b.rarity → List.Sublist [a, b] l →
          List.Sublist [a, b] (sortStep "rarity_asc" l))
    ∧ ((sortStep "rarity_desc" l).Sorted (fun a b => b.rarity ≤ a.rarity)
      ∧ List.Perm (sortStep "rarity_desc" l) l
      ∧ ∀ a b : NFT, a.rarity = b.rarity → List.Sublist [a, b] l →
          List.Sublist [a, b] (sortStep "rarity_desc" l)) := by
  refine ⟨?_, ?_, ?_, ?_, ?_, ?_⟩
  · have h := stableSortSpec (fun a b : NFT => a.price ≤ b.price)
      (fun a b => le_total _ _) (fun a b c => le_trans) l
    exact ⟨h.1, h.2.1, fun a b hab hs => h.2.2 a b (le_of_eq hab) hs⟩
  · have h := stableSortSpec (fun a b : NFT => b.price ≤ a.price)
      (fun a b => le_total _ _) (fun a b c h1 h2 => le_trans h2 h1) l
    exact ⟨h.1, h.2.1, fun a b hab hs => h.2.2 a b (le_of_eq hab.symm) hs⟩
  · have h := stableSortSpec (fun a b : NFT => a.listed_at ≤ b.listed_at)
      (fun a b => le_total _ _) (fun a b c => le_trans) l
    exact ⟨h.1, h.2.1, fun a b hab hs => h.2.2 a b (le_of_eq hab) hs⟩
  · have h := stableSortSpec (fun a b : NFT => b.listed_at ≤ a.listed_at)
      (fun a b => le_total _ _) (fun a b c h1 h2 => le_trans h2 h1) l
    exact ⟨h.1, h.2.1, fun a b hab hs => h.2.2 a b (le_of_eq hab.symm) hs⟩
  · have h := stableSortSpec (fun a b : NFT => a.rarity ≤ b.rarity)
      (fun a b => le_total _ _) (fun a b c => le_trans) l
    exact ⟨h.1, h.2.1, fun a b hab hs => h.2.2 a b (le_of_eq hab) hs⟩
  · have h := stableSortSpec (fun a b : NFT => b.rarity ≤ a.rarity)
      (fun a b => le_total _ _) (fun a b c h1 h2 => le_trans h2 h1) l
    exact ⟨h.1, h.2.1, fun a b hab hs => h.2.2 a b (le_of_eq hab.symm) hs⟩

/-- Witness for the amended C7: on the tie snapshot the two price-equal
entities are kept in snapshot order by the price-ascending sort. -/
theorem sort_stable_ties_witness :
    nftTieA.price = nftTieB.price
    ∧ List.Sublist [nftTieA, nftTieB] (sortStep "price_asc" [nftTieA, nftTieB]) :=
  ⟨rfl, (sort_stable_ties_in_snapshot_order [nftTieA, nftTieB]).1.2.2
    nftTieA nftTieB rfl (List.Sublist.refl _)⟩

/-! ## C9 -/

/-- A successful all-or-nothing detail batch returns one decoded record per
requested id. -/
theorem allFusionDetails_ok_length (d : ℕ → Except GatewayError RawFusionNft) :
    ∀ (ids : List ℕ) (l : List FusionNft),
      allFusionDetails d ids = .ok l → l.length = ids.length := by
  intro ids
  induction ids with
  | nil =>
    intro l h
    simp [allFusionDetails] at h
    simp [← h]
  | cons i rest ih =>
    intro l h
    rcases hd : d i with e | r <;> rcases hr : allFusionDetails d rest with e2 | others <;>
      simp [allFusionDetails, hd, hr] at h
    subst h
    simp [ih others hr]

/-- C9: both owned-NFT refreshes request the owner id list with the fixed
limit 100 and offset 0 of their call sites, so the requested id page is the
first 100 owned ids — ids beyond the first 100 are never fetched — and the
refreshed snapshot holds at most 100 NFTs (the fusion view leaves the
snapshot unchanged when its all-or-nothing detail batch fails). -/
theorem owned_refresh_fixed_page_limit (prev : OwnedState)
    (prevF : List FusionNft) (ownerNftIds : List ℕ)
    (d1 : ℕ → Except GatewayError RawOwnedNft)
    (d2 : ℕ → Except GatewayError RawFusionNft) :
    ownedIdsViewArgs = (100, 0)
    ∧ getAllNftsForOwner ownerNftIds 100 0 = ownerNftIds.take 100
    ∧ (fetchUserNFTs_owned_run prev ownerNftIds d1).1.nfts.length ≤ 100
    ∧ ((fetchUserNFTs_fusion_run prevF ownerNftIds d2).1.length ≤ 100
        ∨ (fetchUserNFTs_fusion_run prevF ownerNftIds d2).1 = prevF) := by
  refine ⟨rfl, by simp [getAllNftsForOwner], ?_, ?_⟩
  · have he : fetchUserNFTs_owned_run prev ownerNftIds d1
        = fetchUserNFTs_owned prev (.ok (ownerNftIds.take 100)) d1 := by
      simp [fetchUserNFTs_owned_run, getAllNftsForOwner, ownedIdsViewArgs]
    rw [he]
    by_cases h : (ownerNftIds.take 100).length = 0
    · simp [fetchUserNFTs_owned, h]
    · simp only [fetchUserNFTs_owned, if_neg h]
      exact le_trans (List.length_filterMap_le _ _) (List.length_take_le _ _)
  · have he : fetchUserNFTs_fusion_run prevF ownerNftIds d2
        = fetchUserNFTs_fusion prevF (.ok (ownerNftIds.take 100)) d2 := by
      simp [fetchUserNFTs_fusion_run, getAllNftsForOwner, ownedIdsViewArgs]
    rw [he]
    rcases hb : allFusionDetails d2 (ownerNftIds.take 100) with e | nfts
    · exact Or.inr (by simp [fetchUserNFTs_fusion, hb])
    · refine Or.inl ?_
      have hlen := allFusionDetails_ok_length d2 _ nfts hb
      simp only [fetchUserNFTs_fusion, hb, hlen]
      exact List.length_take_le _ _
